import Mathlib

/-!
Verification of the LLM invocation and response-hardening layer of the
HS-code classification backend (file `backend/src/services/llm.js`).

The JavaScript source is shallowly embedded over `Str := List Char`
(one element per Unicode scalar value).  Regular-expression operations of
the source are embedded as bespoke executable matchers that mirror the
leftmost, ordered-alternation, continue-after-match semantics that the
concrete patterns of the source exhibit; `String.prototype.replace` with
a string pattern is embedded including its `$`-substitution rules.
`JSON.parse` is embedded as a fuel-based strict parser returning
`Option JsonVal`; the JavaScript `null` value and the `null` returned on
parse failure are both `JsonVal.null`, exactly as in JavaScript, where the
two are one value.  Unicode NFKC normalization (`input.normalize`) is not
part of the repository; every definition that needs it takes it as an
explicit function argument `nfkc`, and concrete evaluations instantiate it
with the identity, which is what NFKC is on the ASCII inputs used.
-/

namespace HsCore

/-- Strings are modelled as lists of Unicode scalar characters. -/
abbrev Str := List Char

/-- Character constants that are awkward to spell as literals. -/
def chLBrace : Char := Char.ofNat 123

/-- Closing curly brace. -/
def chRBrace : Char := Char.ofNat 125

/-- Single quote (apostrophe). -/
def chSQuote : Char := Char.ofNat 39

/-- Backtick. -/
def chBTick : Char := Char.ofNat 96

/-- Membership in the JavaScript regular-expression class `\s`, which is
also the character set removed by `String.prototype.trim`. -/
def isJsWs (c : Char) : Bool :=
  let n := c.toNat
  n == 9 || n == 10 || n == 11 || n == 12 || n == 13 || n == 32 ||
  n == 160 || n == 0x1680 || (0x2000 ≤ n && n ≤ 0x200A) ||
  n == 0x2028 || n == 0x2029 || n == 0x202F || n == 0x205F ||
  n == 0x3000 || n == 0xFEFF

/-- Membership in the JavaScript class `\d` (ASCII digits). -/
def isJsDigit (c : Char) : Bool := '0' ≤ c && c ≤ '9'

/-- JavaScript line terminators, the characters that `.` does not match. -/
def isJsLineTerm (c : Char) : Bool :=
  let n := c.toNat
  n == 10 || n == 13 || n == 0x2028 || n == 0x2029

/-- ASCII lower-casing, the case folding relevant to the `i` flag on the
patterns of the source (all of which are ASCII). -/
def lowerAscii (c : Char) : Char :=
  let n := c.toNat
  if 65 ≤ n && n ≤ 90 then Char.ofNat (n + 32) else c

/-- Case-insensitive character comparison for the `i` regex flag. -/
def chEqCI (a b : Char) : Bool := lowerAscii a == lowerAscii b

/-- Consume a literal word case-insensitively; return the rest on success. -/
def eatCI : Str → Str → Option Str
  | [], s => some s
  | _ :: _, [] => none
  | w :: ws, c :: cs => if chEqCI w c then eatCI ws cs else none

/-- Consume a literal word case-sensitively; return the rest on success. -/
def eatCS : Str → Str → Option Str
  | [], s => some s
  | _ :: _, [] => none
  | w :: ws, c :: cs => if w == c then eatCS ws cs else none

/-- Drop the longest leading run of JavaScript whitespace (greedy x`\s*`). -/
def dropJsWs : Str → Str
  | [] => []
  | c :: cs => if isJsWs c then dropJsWs cs else c :: cs

/-- Ordered alternation of case-insensitive literal words, as a JavaScript
regex alternative list: the first word that matches wins. -/
def firstAltCI : List Str → Str → Option Str
  | [], _ => none
  | w :: ws, s =>
    match eatCI w s with
    | some r => some r
    | none => firstAltCI ws s

/-- Optional case-insensitive word (regex `(w)?`): never fails. -/
def eatOptCI (w : Str) (s : Str) : Str :=
  match eatCI w s with
  | some r => r
  | none => s

/-- Optional ordered alternation (regex `(a|b)?`): never fails. -/
def eatOptAltCI (ws : List Str) (s : Str) : Str :=
  match firstAltCI ws s with
  | some r => r
  | none => s

end HsCore

namespace HsCore

/-- Word literals used by the injection patterns. -/
def wIgnore : Str := ("ignore").toList

/-- Word literal. -/
def wAll : Str := ("all").toList

/-- Word literal. -/
def wPrevious : Str := ("previous").toList

/-- Word literal. -/
def wAbove : Str := ("above").toList

/-- Word literal. -/
def wInstruction : Str := ("instruction").toList

/-- Word literal. -/
def wLetterS : Str := ("s").toList

/-- Word literal. -/
def wSystem : Str := ("system").toList

/-- Word literal. -/
def wPrompt : Str := ("prompt").toList

/-- Word literal. -/
def wDisregard : Str := ("disregard").toList

/-- Word literal. -/
def wEverything : Str := ("everything").toList

/-- Word literal. -/
def wYou : Str := ("you").toList

/-- Word literal. -/
def wAre : Str := ("are").toList

/-- Word literal. -/
def wNow : Str := ("now").toList

/-- Word literal. -/
def wAct : Str := ("act").toList

/-- Word literal. -/
def wAs : Str := ("as").toList

/-- Word literal. -/
def wLetterA : Str := ("a").toList

/-- Word literal. -/
def wAn : Str := ("an").toList

/-- Word literal. -/
def wNew : Str := ("new").toList

/-- Word literal. -/
def wRole : Str := ("role").toList

/-- Word literal. -/
def wTask : Str := ("task").toList

/-- Word literal. -/
def wForget : Str := ("forget").toList

/-- Word literal. -/
def wPretend : Str := ("pretend").toList

/-- Word literal. -/
def wTo : Str := ("to").toList

/-- Word literal. -/
def wBe : Str := ("be").toList

/-- Word literal. -/
def wInstBracketed : Str := ("[INST]").toList

/-- Word literal. -/
def wHuman : Str := ("Human").toList

/-- Word literal. -/
def wAssistant : Str := ("Assistant").toList

/-- Pattern 1 of `sanitizeInput`: `ignore\s*(all|previous|above)\s*instructions?`.
Each matcher takes the text at a candidate position and returns the rest
after the match, or `none`. -/
def mIgnoreInstructions (s : Str) : Option Str :=
  (eatCI wIgnore s).bind fun r1 =>
  (firstAltCI [wAll, wPrevious, wAbove] (dropJsWs r1)).bind fun r2 =>
  (eatCI wInstruction (dropJsWs r2)).map fun r3 =>
  eatOptCI wLetterS r3

/-- Pattern 2: `system\s*prompt`. -/
def mSystemPrompt (s : Str) : Option Str :=
  (eatCI wSystem s).bind fun r1 =>
  eatCI wPrompt (dropJsWs r1)

/-- Pattern 3: `disregard\s*(everything|all|previous)`. -/
def mDisregard (s : Str) : Option Str :=
  (eatCI wDisregard s).bind fun r1 =>
  firstAltCI [wEverything, wAll, wPrevious] (dropJsWs r1)

/-- Pattern 4: `you\s*are\s*now`. -/
def mYouAreNow (s : Str) : Option Str :=
  (eatCI wYou s).bind fun r1 =>
  (eatCI wAre (dropJsWs r1)).bind fun r2 =>
  eatCI wNow (dropJsWs r2)

/-- Pattern 5: `act\s*as\s*(a|an)?`.  The alternation is ordered, so the
single-letter alternative wins whenever it matches, as in JavaScript. -/
def mActAs (s : Str) : Option Str :=
  (eatCI wAct s).bind fun r1 =>
  (eatCI wAs (dropJsWs r1)).map fun r2 =>
  eatOptAltCI [wLetterA, wAn] (dropJsWs r2)

/-- Pattern 6: `new\s*(role|instructions?|task)`. -/
def mNewRole (s : Str) : Option Str :=
  (eatCI wNew s).bind fun r1 =>
  let r2 := dropJsWs r1
  match eatCI wRole r2 with
  | some r => some r
  | none =>
    match (eatCI wInstruction r2).map (eatOptCI wLetterS) with
    | some r => some r
    | none => eatCI wTask r2

/-- Pattern 7: `forget\s*(everything|all|previous)`. -/
def mForget (s : Str) : Option Str :=
  (eatCI wForget s).bind fun r1 =>
  firstAltCI [wEverything, wAll, wPrevious] (dropJsWs r1)

/-- Pattern 8: `pretend\s*(to\s*be|you\s*are)`. -/
def mPretend (s : Str) : Option Str :=
  (eatCI wPretend s).bind fun r1 =>
  let r2 := dropJsWs r1
  match (eatCI wTo r2).bind fun r => eatCI wBe (dropJsWs r) with
  | some r => some r
  | none => (eatCI wYou r2).bind fun r => eatCI wAre (dropJsWs r)

/-- Pattern 9: `\{\{|\}\}` (template brace markers). -/
def mDoubleBrace : Str → Option Str
  | a :: b :: r =>
    if (a == chLBrace && b == chLBrace) || (a == chRBrace && b == chRBrace)
    then some r else none
  | _ => none

/-- Scan for the closing `|>` of pattern 10; the lazy `.*?` matches any
non-line-terminator run up to the first `|>`. -/
def scanPipeGt : Str → Option Str
  | '|' :: '>' :: r => some r
  | c :: r => if isJsLineTerm c then none else scanPipeGt r
  | [] => none

/-- Pattern 10: `<\|.*?\|>` (LLM special markers). -/
def mSpecialMarker : Str → Option Str
  | '<' :: '|' :: r => scanPipeGt r
  | _ => none

/-- Pattern 11: `\[INST\]` (case-insensitive). -/
def mInstMarker (s : Str) : Option Str := eatCI wInstBracketed s

/-- Pattern 12: `###\s*(Human|System|Assistant):`. -/
def mRoleHeader (s : Str) : Option Str :=
  (eatCS (("###").toList) s).bind fun r1 =>
  (firstAltCI [wHuman, wSystem, wAssistant] (dropJsWs r1)).bind fun r2 =>
  eatCS ((":").toList) r2

/-- Generic global replacement driver mirroring `String.prototype.replace`
with a `g` flag: scan left to right; at a match, emit the replacement and
resume scanning after the matched span; otherwise copy one character.
The matcher returns the total match length and the replacement text.
The first argument counts characters that remain to be skipped from a
previous match. -/
def replaceAux (p : Str → Option (Nat × Str)) : Str → Nat → Str
  | [], _ => []
  | _ :: cs, k + 1 => replaceAux p cs k
  | c :: cs, 0 =>
    match p (c :: cs) with
    | some (n + 1, r) => r ++ replaceAux p cs n
    | _ => c :: replaceAux p cs 0

/-- Global replacement entry point. -/
def replaceAll (p : Str → Option (Nat × Str)) (s : Str) : Str :=
  replaceAux p s 0

/-- Lift a rest-returning matcher and a fixed replacement into the form
`replaceAll` consumes (the length is the number of consumed characters). -/
def withRepl (m : Str → Option Str) (repl : Str) (s : Str) : Option (Nat × Str) :=
  match m s with
  | some r => some (s.length - r.length, repl)
  | none => none

/-- Replacement token written into the text by the injection filters. -/
def kwFiltered : String := "[FILTERED]"

/-- List of the twelve injection-pattern matchers, in source order. -/
def injectionMatchers : List (Str → Option Str) :=
  [mIgnoreInstructions, mSystemPrompt, mDisregard, mYouAreNow, mActAs,
   mNewRole, mForget, mPretend, mDoubleBrace, mSpecialMarker,
   mInstMarker, mRoleHeader]

/-- Apply the twelve `[FILTERED]` replacements in order, as the loop over
`injectionPatterns` does. -/
def applyInjectionFilters (s : Str) : Str :=
  injectionMatchers.foldl (fun acc m => replaceAll (withRepl m kwFiltered.toList) acc) s

/-- Matcher for the whitespace-collapsing step `replace(/\s+/g, ' ')`. -/
def mWsRun (s : Str) : Option (Nat × Str) :=
  match s with
  | c :: _ =>
    if isJsWs c then
      let r := dropJsWs s
      some (s.length - r.length, [' '])
    else none
  | [] => none

/-- JavaScript `String.prototype.trim`. -/
def jsTrim (s : Str) : Str :=
  ((s.dropWhile isJsWs).reverse.dropWhile isJsWs).reverse

/-- Embedding of `sanitizeInput`.  The input is typed as a string, so the
`typeof` guard reduces to the emptiness check (the only falsy string);
`normalize(NFKC)` is the explicit argument `nfkc`; `slice(0, 2000)` is
`take 2000`; then whitespace collapsing, trimming, and the ordered
`[FILTERED]` replacements. -/
def sanitizeInput (nfkc : Str → Str) (input : Str) : Str :=
  if input = [] then []
  else
    applyInjectionFilters
      (jsTrim (replaceAll mWsRun (List.take 2000 (nfkc input))))

end HsCore

namespace HsCore

/-- Parsed JSON values.  Numbers keep their raw source text: the claims
under verification never compare numeric magnitudes, only zero-ness (for
JavaScript truthiness) and structural shape. -/
inductive JsonVal where
  | null
  | bool (b : Bool)
  | num (raw : Str)
  | str (s : Str)
  | arr (elems : List JsonVal)
  | obj (fields : List (Str × JsonVal))

/-- Zero test on a raw JSON number: the value is zero exactly when every
digit of the integer and fraction parts is `0`, whatever the sign and
exponent. -/
def numRawZero : Str → Bool
  | [] => true
  | c :: cs =>
    if c == 'e' || c == 'E' then true
    else if c == '1' || c == '2' || c == '3' || c == '4' || c == '5' ||
            c == '6' || c == '7' || c == '8' || c == '9' then false
    else numRawZero cs

/-- JavaScript truthiness of a parsed JSON value: `null`, `false`, zero
numbers and the empty string are falsy; every object and array is truthy. -/
def jsTruthy : JsonVal → Bool
  | .null => false
  | .bool b => b
  | .num raw => !(numRawZero raw)
  | .str s => !(s.isEmpty)
  | .arr _ => true
  | .obj _ => true

/-- Whitespace accepted by `JSON.parse` (tab, LF, CR, space only). -/
def isJsonWs (c : Char) : Bool :=
  c == ' ' || c.toNat == 9 || c.toNat == 10 || c.toNat == 13

/-- Drop leading JSON whitespace. -/
def skipJsonWs : Str → Str
  | [] => []
  | c :: cs => if isJsonWs c then skipJsonWs cs else c :: cs

/-- Hexadecimal digit value. -/
def hexDigit (c : Char) : Option Nat :=
  if '0' ≤ c && c ≤ '9' then some (c.toNat - 48)
  else if 'a' ≤ c && c ≤ 'f' then some (c.toNat - 97 + 10)
  else if 'A' ≤ c && c ≤ 'F' then some (c.toNat - 65 + 10)
  else none

/-- Value of a four-digit hexadecimal escape. -/
def hex4 (a b c d : Char) : Option Nat :=
  (hexDigit a).bind fun va =>
  (hexDigit b).bind fun vb =>
  (hexDigit c).bind fun vc =>
  (hexDigit d).map fun vd =>
  ((va * 16 + vb) * 16 + vc) * 16 + vd

/-- Body of a JSON string literal, after the opening quote (fuel-based;
the fuel is at least the input length plus one at every call site, so it
never runs out).  Mirrors the
ECMA grammar: raw control characters are rejected, the eight simple
escapes and `\uXXXX` are decoded, and a high/low escaped surrogate pair
is combined into one scalar.  A lone surrogate (representable in a
JavaScript string but not as a Unicode scalar) is replaced by U+FFFD;
none of the texts in this development contains one. -/
def parseStrBody : Nat → Str → Str → Option (Str × Str)
  | 0, _, _ => none
  | _ + 1, _, [] => none
  | _ + 1, acc, '"' :: rest => some (acc.reverse, rest)
  | f + 1, acc, '\\' :: 'u' :: a :: b :: c :: d :: rest =>
    (match hex4 a b c d with
     | none => none
     | some n =>
       if 0xD800 ≤ n && n ≤ 0xDBFF then
         match rest with
         | '\\' :: 'u' :: a2 :: b2 :: c2 :: d2 :: rest2 =>
           (match hex4 a2 b2 c2 d2 with
            | some m =>
              if 0xDC00 ≤ m && m ≤ 0xDFFF then
                parseStrBody f
                  (Char.ofNat (0x10000 + (n - 0xD800) * 0x400 + (m - 0xDC00)) :: acc)
                  rest2
              else parseStrBody f (Char.ofNat 0xFFFD :: acc) rest
            | none => parseStrBody f (Char.ofNat 0xFFFD :: acc) rest)
         | _ => parseStrBody f (Char.ofNat 0xFFFD :: acc) rest
       else if 0xDC00 ≤ n && n ≤ 0xDFFF then
         parseStrBody f (Char.ofNat 0xFFFD :: acc) rest
       else parseStrBody f (Char.ofNat n :: acc) rest)
  | f + 1, acc, '\\' :: e :: rest =>
    (match
       (if e == '"' then some '"'
        else if e == '\\' then some '\\'
        else if e == '/' then some '/'
        else if e == 'b' then some (Char.ofNat 8)
        else if e == 'f' then some (Char.ofNat 12)
        else if e == 'n' then some (Char.ofNat 10)
        else if e == 'r' then some (Char.ofNat 13)
        else if e == 't' then some (Char.ofNat 9)
        else none) with
     | some ch => parseStrBody f (ch :: acc) rest
     | none => none)
  | f + 1, acc, c :: rest =>
    if c.toNat < 0x20 then none else parseStrBody f (c :: acc) rest

/-- Longest leading run of ASCII digits, with the rest. -/
def takeDigitsJson : Str → Str × Str
  | [] => ([], [])
  | c :: cs =>
    if isJsDigit c then
      let (ds, r) := takeDigitsJson cs
      (c :: ds, r)
    else ([], c :: cs)

/-- JSON number token, returned as its raw text, per the strict grammar:
optional minus; `0` or a nonzero-led digit run; optional fraction with at
least one digit; optional exponent with at least one digit. -/
def parseNumRaw (s : Str) : Option (Str × Str) :=
  let (sgn, s1) : Str × Str :=
    match s with
    | '-' :: r => (['-'], r)
    | _ => ([], s)
  match s1 with
  | [] => none
  | c :: r =>
    if !(isJsDigit c) then none
    else
      let (intPart, s2) : Str × Str :=
        if c == '0' then (['0'], r)
        else
          let (ds, rest) := takeDigitsJson r
          (c :: ds, rest)
      let fracStep : Option (Str × Str) :=
        match s2 with
        | '.' :: r2 =>
          (match takeDigitsJson r2 with
           | ([], _) => none
           | (ds, rest) => some ('.' :: ds, rest))
        | _ => some ([], s2)
      match fracStep with
      | none => none
      | some (fracPart, s3) =>
        let expStep : Option (Str × Str) :=
          match s3 with
          | e :: r3 =>
            if e == 'e' || e == 'E' then
              let (esgn, r4) : Str × Str :=
                match r3 with
                | '+' :: r5 => (['+'], r5)
                | '-' :: r5 => (['-'], r5)
                | _ => ([], r3)
              match takeDigitsJson r4 with
              | ([], _) => none
              | (ds, rest) => some (e :: esgn ++ ds, rest)
            else some ([], s3)
          | [] => some ([], s3)
        match expStep with
        | none => none
        | some (expPart, s4) =>
          some (sgn ++ intPart ++ fracPart ++ expPart, s4)

/-- Insert a member into an object under JavaScript semantics: a repeated
key keeps its first position but takes the last value. -/
def objUpsert (key : Str) (v : JsonVal) : List (Str × JsonVal) → List (Str × JsonVal)
  | [] => [(key, v)]
  | (k, w) :: fs => if k = key then (k, v) :: fs else (k, w) :: objUpsert key v fs

end HsCore

namespace HsCore

mutual

/-- JSON value parser, structural on fuel (always called with fuel larger
than the remaining input, so exhaustion is unreachable).  Mirrors the
ECMA `JSON.parse` grammar; returns the value and the unconsumed rest. -/
def jsonValAux : Nat → Str → Option (JsonVal × Str)
  | 0, _ => none
  | f + 1, s =>
    match skipJsonWs s with
    | [] => none
    | c :: r =>
      if c = chLBrace then
        match skipJsonWs r with
        | [] => none
        | c2 :: r2 =>
          if c2 = chRBrace then some (.obj [], r2)
          else jsonMembersAux f (c2 :: r2) []
      else if c = '[' then
        match skipJsonWs r with
        | [] => none
        | c2 :: r2 =>
          if c2 = ']' then some (.arr [], r2)
          else jsonElemsAux f (c2 :: r2) []
      else if c = '"' then
        (parseStrBody (r.length + 1) [] r).map fun p => (JsonVal.str p.1, p.2)
      else if c = 't' then
        (eatCS (("rue").toList) r).map fun rest => (JsonVal.bool true, rest)
      else if c = 'f' then
        (eatCS (("alse").toList) r).map fun rest => (JsonVal.bool false, rest)
      else if c = 'n' then
        (eatCS (("ull").toList) r).map fun rest => (JsonVal.null, rest)
      else if c = '-' || isJsDigit c then
        (parseNumRaw (c :: r)).map fun p => (JsonVal.num p.1, p.2)
      else none

/-- One-or-more comma-separated object members (the empty object is
handled before this is entered). -/
def jsonMembersAux : Nat → Str → List (Str × JsonVal) → Option (JsonVal × Str)
  | 0, _, _ => none
  | f + 1, s, acc =>
    match skipJsonWs s with
    | '"' :: r =>
      (match parseStrBody (r.length + 1) [] r with
       | none => none
       | some (key, r1) =>
         match skipJsonWs r1 with
         | ':' :: r2 =>
           (match jsonValAux f r2 with
            | none => none
            | some (v, r3) =>
              let acc2 := objUpsert key v acc
              match skipJsonWs r3 with
              | ',' :: r4 => jsonMembersAux f r4 acc2
              | c :: r4 => if c = chRBrace then some (.obj acc2, r4) else none
              | [] => none)
         | _ => none)
    | _ => none

/-- One-or-more comma-separated array elements (the empty array is
handled before this is entered). -/
def jsonElemsAux : Nat → Str → List JsonVal → Option (JsonVal × Str)
  | 0, _, _ => none
  | f + 1, s, acc =>
    match jsonValAux f s with
    | none => none
    | some (v, r) =>
      match skipJsonWs r with
      | ',' :: r2 => jsonElemsAux f r2 (acc ++ [v])
      | ']' :: r2 => some (.arr (acc ++ [v]), r2)
      | _ => none

end

/-- Embedding of `JSON.parse`: parse one value and require only
whitespace after it; `none` models the thrown `SyntaxError`. -/
def jsonParse (s : Str) : Option JsonVal :=
  match jsonValAux (s.length + 1) s with
  | some (v, rest) => if skipJsonWs rest = [] then some v else none
  | none => none

end HsCore

namespace HsCore

/-- First index at which a literal substring occurs. -/
def findSub (pat : Str) : Str → Option Nat
  | [] => if pat = [] then some 0 else none
  | c :: cs =>
    match eatCS pat (c :: cs) with
    | some _ => some 0
    | none => (findSub pat cs).map (· + 1)

/-- Triple-backtick fence. -/
def fenceTicks : Str := List.replicate 3 chBTick

/-- Strategy 1 of the normalizer: the first match of the regex
with a fence, an optional case-sensitive `json` tag, greedy whitespace
and a lazy body up to the next fence; returns the captured body. -/
def extractCodeBlock (s : Str) : Option Str :=
  (findSub fenceTicks s).bind fun i =>
    let afterOpen := s.drop (i + 3)
    let afterTag :=
      match eatCS (("json").toList) afterOpen with
      | some r => r
      | none => afterOpen
    let content := dropJsWs afterTag
    (findSub fenceTicks content).map fun j => content.take j

/-- Index translation with the JavaScript `-1` sentinel. -/
def idxOrNegOne : Option Nat → Int
  | some n => (n : Int)
  | none => -1

/-- Last index at which a character occurs (`lastIndexOf`). -/
def lastIdxOf (c : Char) (s : Str) : Option Nat :=
  (s.reverse.findIdx? (· = c)).map fun k => s.length - 1 - k

/-- Strategy 2 of the normalizer: narrow to the span from the first `[`
or open brace to the greater of the last `]` and last close brace,
exactly when the start exists and the end lies strictly after it. -/
def narrowJson (s : Str) : Str :=
  let jsonStartIdx : Int := idxOrNegOne (s.findIdx? fun c => c = '[' || c = chLBrace)
  let jsonEndIdx : Int :=
    max (idxOrNegOne (lastIdxOf chRBrace s)) (idxOrNegOne (lastIdxOf ']' s))
  if jsonStartIdx ≠ -1 ∧ jsonEndIdx > jsonStartIdx then
    (s.take (jsonEndIdx + 1).toNat).drop jsonStartIdx.toNat
  else s

/-- Characters removed by the control-character strip of strategy 3
(`[\x00-\x08\x0B\x0C\x0E-\x1F\x7F]`). -/
def isStrippedCtrl (c : Char) : Bool :=
  let n := c.toNat
  n ≤ 8 || n == 11 || n == 12 || (14 ≤ n && n ≤ 31) || n == 127

/-- Leading whitespace span and the rest. -/
def spanWs (s : Str) : Str × Str := (s.takeWhile isJsWs, s.dropWhile isJsWs)

/-- ASCII identifier head (`[a-zA-Z_]`). -/
def isIdentStart (c : Char) : Bool := c.isAlpha || c == '_'

/-- ASCII identifier character (`[a-zA-Z0-9_]`). -/
def isIdentChar (c : Char) : Bool := isIdentStart c || isJsDigit c

/-- Matcher for the bare-key repair
`([{,]\s*)([a-zA-Z_][a-zA-Z0-9_]*)\s*:` with replacement `$1"$2":`. -/
def mBareKey (s : Str) : Option (Nat × Str) :=
  match s with
  | c :: r =>
    if c = chLBrace ∨ c = ',' then
      let (ws1, r1) := spanWs r
      match r1 with
      | d :: _ =>
        if isIdentStart d then
          let ident := r1.takeWhile isIdentChar
          let r2 := r1.dropWhile isIdentChar
          let (ws2, r3) := spanWs r2
          match r3 with
          | e :: _ =>
            if e = ':' then
              some (1 + ws1.length + ident.length + ws2.length + 1,
                    c :: ws1 ++ ['"'] ++ ident ++ ['"', ':'])
            else none
          | [] => none
        else none
      | [] => none
    else none
  | [] => none

/-- Matcher for the trailing-comma repair `,(\s*[}\]])` with
replacement `$1`. -/
def mTrailingComma (s : Str) : Option (Nat × Str) :=
  match s with
  | ',' :: r =>
    let (ws1, r1) := spanWs r
    match r1 with
    | c :: _ =>
      if c = chRBrace ∨ c = ']' then some (1 + ws1.length + 1, ws1 ++ [c])
      else none
    | [] => none
  | _ => none

/-- Matcher for the embedded-newline repair `"([^"]*)\n([^"]*)"` with
replacement `"$1 $2"`: a quoted quote-free span containing a line feed;
the greedy first group runs to the last line feed of the span. -/
def mNlInString (s : Str) : Option (Nat × Str) :=
  match s with
  | '"' :: r =>
    (r.findIdx? (· = '"')).bind fun q =>
      let inner := r.take q
      match lastIdxOf (Char.ofNat 10) inner with
      | some i =>
        some (q + 2, '"' :: inner.take i ++ [' '] ++ inner.drop (i + 1) ++ ['"'])
      | none => none
  | _ => none

/-- Strategy 3 of the normalizer: the five syntax repairs in source
order (control strip, bare keys, trailing commas, quote conversion,
newline-in-string collapse). -/
def repairText (s : Str) : Str :=
  replaceAll mNlInString
    ((replaceAll mTrailingComma
        (replaceAll mBareKey
          (s.filter (fun c => !(isStrippedCtrl c))))).map
      (fun c => if c = chSQuote then '"' else c))

/-- Scan all positions left to right; return the first hit of a matcher. -/
def scanFirst {α : Type} (m : Str → Option α) : Str → Option α
  | [] => m []
  | c :: cs =>
    match m (c :: cs) with
    | some x => some x
    | none => scanFirst m cs

/-- Matcher for strategy 4: `"classifications"\s*:\s*(\[[\s\S]*?\])`,
returning the captured bracketed text (lazy, to the first `]`). -/
def mClsArray (s : Str) : Option Str :=
  (eatCS (("\x22classifications\x22").toList) s).bind fun r1 =>
    match dropJsWs r1 with
    | ':' :: r2 =>
      (match dropJsWs r2 with
       | '[' :: r3 =>
         (r3.findIdx? (· = ']')).map fun j => '[' :: r3.take j ++ [']']
       | _ => none)
    | _ => none

/-- Wrapper object shared by strategies 4 and 5: the salvaged
classifications with empty keywords and null material and category. -/
def wrapClassifications (cls : JsonVal) : JsonVal :=
  .obj [(("classifications").toList, cls),
        (("keywords").toList, .arr []),
        (("material").toList, .null),
        (("category").toList, .null)]

/-- Matcher for strategy 5 (`"hs_code"\s*:\s*"(\d{6,10})"`, global):
returns the total length and the matched substring.  The digit counter
is the exact quoted run, which the bounded quantifier accepts only at
lengths six to ten. -/
def mHsCodeAt (s : Str) : Option (Nat × Str) :=
  (eatCS (("\x22hs_code\x22").toList) s).bind fun r1 =>
    let (ws1, r2) := spanWs r1
    match r2 with
    | ':' :: r3 =>
      let (ws2, r4) := spanWs r3
      (match r4 with
       | '"' :: r5 =>
         let (ds, r6) := takeDigitsJson r5
         if 6 ≤ ds.length ∧ ds.length ≤ 10 then
           match r6 with
           | '"' :: _ =>
             let len := 9 + ws1.length + 1 + ws2.length + 1 + ds.length + 1
             some (len, s.take len)
           | _ => none
         else none
       | _ => none)
    | _ => none

/-- Collect every match of a matcher, resuming after each matched span,
as a global `String.prototype.match` does. -/
def scanAllAux (m : Str → Option (Nat × Str)) : Str → Nat → List Str
  | [], _ => []
  | _ :: cs, k + 1 => scanAllAux m cs k
  | c :: cs, 0 =>
    match m (c :: cs) with
    | some (n + 1, t) => t :: scanAllAux m cs n
    | _ => scanAllAux m cs 0

/-- Inner capture of strategy 5: the first `"(\d{6,10})"` group of a
matched span, with the empty-string fallback of `?.[1] || ''`. -/
def innerHsCode (t : Str) : Str :=
  (scanFirst
    (fun s =>
      match s with
      | '"' :: r =>
        let (ds, r2) := takeDigitsJson r
        if 6 ≤ ds.length ∧ ds.length ≤ 10 then
          match r2 with
          | '"' :: _ => some ds
          | _ => none
        else none
      | _ => none) t).getD []

/-- Matcher for the first step of the code formatter,
`(\d{4})(\d{2})(\d{2})?` with replacement `$1.$2.$3` (first match only). -/
def mFmtGroups (s : Str) : Option (Nat × Str) :=
  let (ds, _) := takeDigitsJson s
  if ds.length ≥ 8 then
    some (8, ds.take 4 ++ ['.'] ++ (ds.drop 4).take 2 ++ ['.'] ++ (ds.drop 6).take 2)
  else if ds.length ≥ 6 then
    some (6, ds.take 4 ++ ['.'] ++ (ds.drop 4).take 2 ++ ['.'])
  else none

/-- Replace only the first match of a matcher (no `g` flag). -/
def replaceFirstM (m : Str → Option (Nat × Str)) : Str → Str
  | [] => []
  | c :: cs =>
    match m (c :: cs) with
    | some (n + 1, r) => r ++ cs.drop n
    | _ => c :: replaceFirstM m cs

/-- Second step of the code formatter: `replace(/\.$/, '')`. -/
def dropTrailingDot (s : Str) : Str :=
  match s.reverse with
  | '.' :: r => r.reverse
  | _ => s

/-- Formatted code of a salvaged candidate: separators after the fourth
and sixth digit, with a dangling dot removed. -/
def formatHsCode (code : Str) : Str :=
  dropTrailingDot (replaceFirstM mFmtGroups code)

/-- Salvaged candidate object of strategy 5, in source field order. -/
def salvageCandidate (code : Str) : JsonVal :=
  .obj [(("hs_code").toList, .str code),
        (("hs_formatted").toList, .str (formatHsCode code)),
        (("description").toList, .str (("Extracted from LLM response").toList)),
        (("confidence").toList, .str (("low").toList)),
        (("reasoning").toList,
         .str (("Partial extraction due to JSON parse error").toList))]

/-- Embedding of `JSON.parse` at an exception-transparent type: the
`error` constructor models the thrown `SyntaxError`. -/
def jsonParseExc (s : Str) : Except String JsonVal :=
  match jsonParse s with
  | some v => .ok v
  | none => .error "SyntaxError"

/-- Progressive text of strategies 1 to 3 of the normalizer: trim, strip
one fenced block if present (trimming the body), narrow to bracketed
span, and apply the syntax repairs. -/
def normalizerText (response : Str) : Str :=
  let text0 := jsTrim response
  let text1 :=
    match extractCodeBlock text0 with
    | some inner => jsTrim inner
    | none => text0
  repairText (narrowJson text1)

/-- Embedding of `parseJsonResponse` at an exception-transparent type:
an `error` result would mean an exception escaping the function.  The
layered strategies and both `try`/`catch` blocks are mirrored exactly;
the falsy-argument guard returns `null`, as does total failure. -/
def parseJsonResponseE (response : Str) : Except String JsonVal :=
  if response = [] then .ok .null
  else
    let text := normalizerText response
    match jsonParseExc text with
    | .ok v => .ok v
    | .error _firstError =>
      let salvage4 : Except String (Option JsonVal) :=
        match scanFirst mClsArray text with
        | some arrTxt =>
          (match jsonParseExc arrTxt with
           | .ok cls => .ok (some (wrapClassifications cls))
           | .error e => .error e)
        | none => .ok none
      match salvage4 with
      | .ok (some v) => .ok v
      | _ =>
        match scanAllAux mHsCodeAt text 0 with
        | [] => .ok .null
        | ms =>
          .ok (wrapClassifications
                (.arr (ms.map fun t => salvageCandidate (innerHsCode t))))

end HsCore

namespace HsCore

/-- Template `CLASSIFICATION_PROMPT` of the source, verbatim (braces are
written as hexadecimal escapes). -/
def CLASSIFICATION_PROMPT : String := "You are an expert Indonesian customs broker specializing in HS code classification (BTKI 2022).\n\nGiven a product description, identify the most likely HS codes.\n\nPRODUCT DESCRIPTION:\n\x7bdescription\x7d\n\nCLASSIFICATION RULES:\n1. HS codes are 8 digits in Indonesia (format: XXXX.XX.XX)\n2. Consider material, function, and intended use\n3. Apply GRI (General Rules of Interpretation)\n4. Provide confidence level (high/medium/low)\n\nRESPOND IN JSON FORMAT ONLY:\n\x7b\x7b\n  \"classifications\": [\n    \x7b\x7b\n      \"hs_code\": \"XXXXXXXX\",\n      \"hs_formatted\": \"XXXX.XX.XX\",\n      \"description\": \"Brief description in Indonesian\",\n      \"confidence\": \"high|medium|low\",\n      \"reasoning\": \"Why this code applies\"\n    \x7d\x7d\n  ],\n  \"keywords\": [\"keyword1\", \"keyword2\"],\n  \"material\": \"primary material if identifiable\",\n  \"category\": \"general product category\"\n\x7d\x7d\n\nReturn top 3 most likely codes. JSON only, no markdown."

/-- Template `SEARCH_ENHANCEMENT_PROMPT` of the source, verbatim. -/
def SEARCH_ENHANCEMENT_PROMPT : String := "You are a customs classification expert. Given a natural language query, extract search terms.\n\nQUERY: \x7bquery\x7d\n\nExtract:\n1. Primary product keywords (Indonesian and English)\n2. Material keywords if mentioned\n3. Function/use keywords\n4. Related HS chapter categories\n\nRESPOND IN JSON FORMAT ONLY:\n\x7b\x7b\n  \"keywords_id\": [\"keyword1\", \"keyword2\"],\n  \"keywords_en\": [\"keyword1\", \"keyword2\"],\n  \"materials\": [\"material1\"],\n  \"functions\": [\"function1\"],\n  \"chapters\": [\"XX\", \"YY\"]\n\x7d\x7d\n\nJSON only, no explanation."

/-- Substitution of a replacement string per the JavaScript
GetSubstitution rules for a string search pattern: `$$` is a dollar,
`$&` the matched text, a backtick dollar-escape the text before the
match, a quote dollar-escape the text after it; any other dollar is
literal. -/
def getSubstitution (matched before after : Str) : Str → Str
  | [] => []
  | c :: r =>
    if c = '$' then
      match r with
      | [] => ['$']
      | d :: r2 =>
        if d = '$' then '$' :: getSubstitution matched before after r2
        else if d = '&' then matched ++ getSubstitution matched before after r2
        else if d = chBTick then before ++ getSubstitution matched before after r2
        else if d = chSQuote then after ++ getSubstitution matched before after r2
        else '$' :: getSubstitution matched before after (d :: r2)
    else c :: getSubstitution matched before after r

/-- JavaScript `String.prototype.replace` with a string pattern: replace
the first occurrence only, running the replacement text through
`getSubstitution`. -/
def jsReplaceFirst (s pat repl : Str) : Str :=
  match findSub pat s with
  | none => s
  | some i =>
    s.take i ++
    getSubstitution pat (s.take i) (s.drop (i + pat.length)) repl ++
    s.drop (i + pat.length)

/-- Placeholder of the classification template. -/
def descPlaceholder : Str := ("\x7bdescription\x7d").toList

/-- Placeholder of the search-enhancement template. -/
def queryPlaceholder : Str := ("\x7bquery\x7d").toList

/-- Prompt rendering of `classifyProduct` (line 162 of the source). -/
def renderClassificationPrompt (v : Str) : Str :=
  jsReplaceFirst CLASSIFICATION_PROMPT.toList descPlaceholder v

/-- Prompt rendering of `enhanceSearchQuery`. -/
def renderSearchPrompt (v : Str) : Str :=
  jsReplaceFirst SEARCH_ENHANCEMENT_PROMPT.toList queryPlaceholder v

/-- Outcome of one raced model call: either the reply text, or a thrown
error carrying its message.  A timeout loss of the race is the thrown
error whose message is `Request timed out`, exactly what the code
inspects. -/
inductive GatewayOutcome where
  | reply (content : Str)
  | raise (msg : String)

/-- Message of the timeout rejection built by `createTimeoutPromise`. -/
def timeoutRaceMsg : String := "Request timed out"

/-- Terminal timeout message of `classifyProduct`. -/
def classifyTimeoutMsg : String := "Classification timed out. Please try again."

/-- Terminal failure message of `classifyProduct`. -/
def classifyUnavailableMsg : String := "Classification service unavailable"

/-- Message thrown on an empty sanitized description. -/
def invalidDescMsg : String := "Invalid or empty description"

/-- Attempt budget of the classification retry loop. -/
def MAX_RETRIES : Nat := 2

/-- Retry loop of `classifyProduct`, one iteration per fuel unit, entered
at attempt 1 with fuel `MAX_RETRIES`; falling off the loop returns
`null`.  The body first runs the `try` block (a gateway outcome, then
the normalizer on the trimmed reply, then the truthiness test), then
dispatches exactly as the source: a truthy parse returns; a falsy parse
retries when attempts remain and otherwise returns `null`; a thrown
timeout retries when attempts remain and otherwise throws the terminal
timeout; any other thrown error throws the terminal failure on the last
attempt and otherwise falls through the `catch` into the next
iteration. -/
def classifyLoop (gw : Nat → GatewayOutcome) : Nat → Nat → Except String JsonVal
  | _, 0 => .ok .null
  | attempt, fuel + 1 =>
    let tryResult : Except String (Option JsonVal) :=
      match gw attempt with
      | .raise msg => .error msg
      | .reply content =>
        match parseJsonResponseE (jsTrim content) with
        | .error e => .error e
        | .ok result => .ok (if jsTruthy result then some result else none)
    match tryResult with
    | .ok (some result) => .ok result
    | .ok none =>
      if attempt < MAX_RETRIES then classifyLoop gw (attempt + 1) fuel
      else .ok .null
    | .error msg =>
      if msg = timeoutRaceMsg then
        if attempt < MAX_RETRIES then classifyLoop gw (attempt + 1) fuel
        else .error classifyTimeoutMsg
      else if attempt ≥ MAX_RETRIES then .error classifyUnavailableMsg
      else classifyLoop gw (attempt + 1) fuel

/-- Embedding of `classifyProduct`.  The gateway behavior is an explicit
argument mapping the rendered prompt and the attempt number to that
attempt's outcome (the code varies only the sampling temperature between
attempts, which is part of the abstracted call). -/
def classifyProduct (nfkc : Str → Str) (gw : Str → Nat → GatewayOutcome)
    (description : Str) : Except String JsonVal :=
  let sanitizedDescription := sanitizeInput nfkc description
  if sanitizedDescription = [] then .error invalidDescMsg
  else classifyLoop (gw (renderClassificationPrompt sanitizedDescription)) 1 MAX_RETRIES

/-- Pass-through fallback of `enhanceSearchQuery`, built from the
original (unsanitized) query. -/
def searchFallback (query : Str) : JsonVal :=
  .obj [(("keywords_id").toList, .arr [.str query]),
        (("keywords_en").toList, .arr [.str query]),
        (("success").toList, .bool false)]

/-- Fields contributed by a JavaScript object spread `{...v}`: an object
spreads its fields, an array or string its indexed entries, and a
primitive nothing. -/
def jsSpreadFields : JsonVal → List (Str × JsonVal)
  | .obj fs => fs
  | .arr l => l.enum.map fun p => ((toString p.1).toList, p.2)
  | .str s => s.enum.map fun p => ((toString p.1).toList, .str [p.2])
  | _ => []

/-- Value of `{...result, success: true}`. -/
def spreadWithSuccess (v : JsonVal) : JsonVal :=
  .obj (objUpsert (("success").toList) (.bool true) (jsSpreadFields v))

/-- Embedding of `enhanceSearchQuery` at an exception-transparent type:
an `error` result would be an exception escaping the function.  An empty
sanitized query short-circuits to the fallback; otherwise one gateway
call is made, any thrown error is caught into the fallback, and a reply
is normalized and spread when truthy. -/
def enhanceSearchQuery (nfkc : Str → Str) (gw : Str → GatewayOutcome)
    (query : Str) : Except String JsonVal :=
  let sanitizedQuery := sanitizeInput nfkc query
  if sanitizedQuery = [] then .ok (searchFallback query)
  else
    let tryResult : Except String JsonVal :=
      match gw (renderSearchPrompt sanitizedQuery) with
      | .raise msg => .error msg
      | .reply content =>
        match parseJsonResponseE (jsTrim content) with
        | .error e => .error e
        | .ok result =>
          .ok (if jsTruthy result then spreadWithSuccess result
               else searchFallback query)
    match tryResult with
    | .ok v => .ok v
    | .error _ => .ok (searchFallback query)

end HsCore

namespace HsCore

/-- Test whether the text begins with six consecutive ASCII digits. -/
def startsWithSixDigits : Str → Bool
  | a :: b :: c :: d :: e :: f :: _ =>
    isJsDigit a && isJsDigit b && isJsDigit c && isJsDigit d &&
    isJsDigit e && isJsDigit f
  | _ => false

/-- Test whether any position of the text begins six consecutive ASCII
digits; equivalently, whether the text contains a digit sequence of
length between six and ten (every longer run contains one). -/
def hasDigitRun6 : Str → Bool
  | [] => false
  | c :: cs => startsWithSixDigits (c :: cs) || hasDigitRun6 cs

/-- Field lookup in an object member list. -/
def fieldLookup (k : Str) : List (Str × JsonVal) → Option JsonVal
  | [] => none
  | (k2, v) :: fs => if k2 = k then some v else fieldLookup k fs

/-- Field access on a JSON value (`none` off objects). -/
def getField (v : JsonVal) (k : Str) : Option JsonVal :=
  match v with
  | .obj fs => fieldLookup k fs
  | _ => none

/-- Length of the `classifications` list of a result (zero when absent
or not a list). -/
def classificationsLength (v : JsonVal) : Nat :=
  match getField v (("classifications").toList) with
  | some (.arr l) => l.length
  | _ => 0

/-- Index of the description placeholder inside the classification
template. -/
def promptDescIdx : Nat :=
  (findSub descPlaceholder CLASSIFICATION_PROMPT.toList).getD 0

/-- Text of the classification template before the placeholder. -/
def promptHead : Str := CLASSIFICATION_PROMPT.toList.take promptDescIdx

/-- Text of the classification template after the placeholder. -/
def promptTail : Str :=
  CLASSIFICATION_PROMPT.toList.drop (promptDescIdx + descPlaceholder.length)

/-- Specification-side model of the search-enhancement contract, written
from the spec text: an empty sanitized query, a failed model call, an
unusable (null) parse or a falsy parsed value all degrade to the
pass-through fallback built from the original query; a truthy parsed
value is returned spread with `success: true`. -/
def enhanceSpecModel (nfkc : Str → Str) (gw : Str → GatewayOutcome)
    (query : Str) : JsonVal :=
  if sanitizeInput nfkc query = [] then searchFallback query
  else
    match gw (renderSearchPrompt (sanitizeInput nfkc query)) with
    | .raise _ => searchFallback query
    | .reply content =>
      match parseJsonResponseE (jsTrim content) with
      | .ok v => if jsTruthy v then spreadWithSuccess v else searchFallback query
      | .error _ => searchFallback query

end HsCore

namespace HsCore

/-- Concatenation of k copies of the replacement token, the text the
brace filter produces from a run of 2k opening braces. -/
def filteredRun (k : Nat) : Str := (List.replicate k kwFiltered.toList).flatten

/-- Input of 402 opening braces: 201 filtered pairs expand to 2010
characters, past the 2000-character cap. -/
def bracesInput : Str := List.replicate 402 chLBrace

/-- Short benign description used as a concrete sanitizer fixed point. -/
def sanitizeSample : Str := ("laptop gaming asus").toList

/-- Message of a non-timeout gateway failure used in concrete runs. -/
def connRefusedMsg : String := "connection refused"

/-- Parseable reply text used in concrete runs. -/
def goodReplyText : Str := ("\x7b\"a\": 1\x7d").toList

/-- Parsed value of `goodReplyText`. -/
def goodReplyVal : JsonVal := .obj [(("a").toList, .num (("1").toList))]

/-- Concrete description input. -/
def descLaptop : Str := ("laptop").toList

/-- Gateway behavior: hard failure on attempt 1, good reply on later
attempts. -/
def gwFailThenGood : Str → Nat → GatewayOutcome :=
  fun _ a => if a = 1 then .raise connRefusedMsg else .reply goodReplyText

/-- Gateway behavior: hard failure on every attempt. -/
def gwFailTwice : Str → Nat → GatewayOutcome := fun _ _ => .raise connRefusedMsg

/-- Unparsable reply text. -/
def badReplyText : Str := ("no json here").toList

/-- Gateway behavior: unusable reply on every attempt. -/
def gwBadReplies : Str → Nat → GatewayOutcome := fun _ _ => .reply badReplyText

/-- The model text of C4: a single-quoted value under an unquoted key,
with no brace anywhere. -/
def c4Text : Str := ("hs_code: \x2701012100\x27").toList

/-- Variant of the C4 text with one leading open brace. -/
def c4BraceText : Str := ("\x7bhs_code: \x2701012100\x27").toList

/-- Candidate the salvage layer builds for code 01012100. -/
def c4Candidate : JsonVal :=
  .obj [(("hs_code").toList, .str (("01012100").toList)),
        (("hs_formatted").toList, .str (("0101.21.00").toList)),
        (("description").toList, .str (("Extracted from LLM response").toList)),
        (("confidence").toList, .str (("low").toList)),
        (("reasoning").toList,
         .str (("Partial extraction due to JSON parse error").toList))]

/-- Full salvage result for `c4BraceText`. -/
def c4Value : JsonVal :=
  .obj [(("classifications").toList, .arr [c4Candidate]),
        (("keywords").toList, .arr []),
        (("material").toList, .null),
        (("category").toList, .null)]

/-- Valid JSON whose classifications list has four entries. -/
def fourText : Str := ("\x7b\"classifications\":[1,2,3,4]\x7d").toList

/-- Parsed value of `fourText`. -/
def fourVal : JsonVal :=
  .obj [(("classifications").toList,
         .arr [.num (("1").toList), .num (("2").toList),
               .num (("3").toList), .num (("4").toList)])]

/-- Unparsable text carrying four quoted hs_code fields. -/
def salvageFourText : Str :=
  ("x \"hs_code\": \"11111111\" \"hs_code\": \"22222222\" \"hs_code\": \"33333333\" \"hs_code\": \"44444444\"").toList

/-- Salvage result of `salvageFourText`: four candidates. -/
def salvageFourVal : JsonVal :=
  wrapClassifications
    (.arr [salvageCandidate (("11111111").toList),
           salvageCandidate (("22222222").toList),
           salvageCandidate (("33333333").toList),
           salvageCandidate (("44444444").toList)])

/-- Model text whose strict parse succeeds with a falsy value. -/
def zeroText : Str := ("0").toList

/-- Concrete search query. -/
def qToys : Str := ("toys").toList

/-- The empty JSON object as model text: parses with no digit present. -/
def emptyObjText : Str := ("\x7b\x7d").toList

/-- Text whose only six-digit run appears after the control strip joins
two three-digit runs. -/
def ctrlJoinText : Str :=
  ("\"hs_code\": \"123").toList ++ [Char.ofNat 1] ++ ("456\"").toList

/-- Salvage result of `ctrlJoinText`. -/
def ctrlJoinVal : JsonVal :=
  wrapClassifications (.arr [salvageCandidate (("123456").toList)])

/-- Digit-free text on which the classifications-array layer fires. -/
def clsNoDigitText : Str := ("\x7bx \"classifications\": [true]").toList

/-- Result of the classifications-array layer on `clsNoDigitText`. -/
def clsNoDigitVal : JsonVal := wrapClassifications (.arr [.bool true])

/-- Replacement value that expands to the matched placeholder. -/
def dollarAmp : Str := ("$&").toList

/-- Whitespace-only description: sanitizes to the empty string. -/
def wsOnlyDesc : Str := ("   ").toList

end HsCore

namespace HsCore

/-- Totality of the normalizer: every branch of every strategy, parse
failures included, ends in a returned value, never in a propagated
exception. -/
theorem parseJsonResponseE_total (s : Str) : ∃ v, parseJsonResponseE s = Except.ok v := by
  unfold parseJsonResponseE
  split
  · exact ⟨_, rfl⟩
  · dsimp only
    split
    · exact ⟨_, rfl⟩
    · split
      · exact ⟨_, rfl⟩
      · split
        · exact ⟨_, rfl⟩
        · exact ⟨_, rfl⟩

/-- A successful case-sensitive literal match leaves a suffix. -/
theorem eatCS_suffix : ∀ {w s r : Str}, eatCS w s = some r → r <:+ s := by
  intro w
  induction w with
  | nil =>
    intro s r h
    simp [eatCS] at h
    exact h ▸ List.suffix_refl s
  | cons c ws ih =>
    intro s r h
    cases s with
    | nil => simp [eatCS] at h
    | cons d ds =>
      rw [eatCS] at h
      by_cases hcd : c == d
      · rw [if_pos hcd] at h
        exact (ih h).trans (List.suffix_cons d ds)
      · rw [if_neg hcd] at h
        exact absurd h (by simp)

/-- Dropping a prefix leaves a suffix. -/
theorem dropWhile_isSuffix (p : Char → Bool) : ∀ l : Str, l.dropWhile p <:+ l := by
  intro l
  induction l with
  | nil => exact List.suffix_refl _
  | cons c cs ih =>
    rw [List.dropWhile]
    by_cases hc : p c
    · simp only [hc]
      exact ih.trans (List.suffix_cons c cs)
    · simp only [hc]
      exact List.suffix_refl _

/-- A digit run inside a suffix is a digit run of the whole text. -/
theorem hasDigitRun6_append {s2 : Str} (h : hasDigitRun6 s2 = true) :
    ∀ t : Str, hasDigitRun6 (t ++ s2) = true := by
  intro t
  induction t with
  | nil => simpa using h
  | cons c cs ih =>
    rw [List.cons_append, hasDigitRun6, ih, Bool.or_true]

/-- Monotonicity of the digit-run test along suffixes. -/
theorem hasDigitRun6_of_suffix {s1 s2 : Str} (hs : s2 <:+ s1)
    (h : hasDigitRun6 s2 = true) : hasDigitRun6 s1 = true := by
  obtain ⟨t, ht⟩ := hs
  exact ht ▸ hasDigitRun6_append h t

/-- A nonempty leading digit take starts with a digit. -/
theorem digit_head_of_take {s : Str} (h : 1 ≤ (takeDigitsJson s).1.length) :
    ∃ c cs, s = c :: cs ∧ isJsDigit c = true ∧
      (takeDigitsJson cs).1.length + 1 = (takeDigitsJson s).1.length := by
  cases s with
  | nil => simp [takeDigitsJson] at h
  | cons c cs =>
    by_cases hc : isJsDigit c
    · exact ⟨c, cs, rfl, hc, by simp [takeDigitsJson, hc]⟩
    · simp [takeDigitsJson, hc] at h

/-- A leading digit take of length at least six means six leading
digits. -/
theorem startsWithSix_of_digits : ∀ {s : Str},
    6 ≤ (takeDigitsJson s).1.length → startsWithSixDigits s = true := by
  intro s h
  obtain ⟨c1, s1, rfl, d1, e1⟩ := digit_head_of_take (s := s) (by omega)
  obtain ⟨c2, s2, rfl, d2, e2⟩ := digit_head_of_take (s := s1) (by omega)
  obtain ⟨c3, s3, rfl, d3, e3⟩ := digit_head_of_take (s := s2) (by omega)
  obtain ⟨c4, s4, rfl, d4, e4⟩ := digit_head_of_take (s := s3) (by omega)
  obtain ⟨c5, s5, rfl, d5, e5⟩ := digit_head_of_take (s := s4) (by omega)
  obtain ⟨c6, s6, rfl, d6, e6⟩ := digit_head_of_take (s := s5) (by omega)
  simp [startsWithSixDigits, d1, d2, d3, d4, d5, d6]

/-- Six leading digits are a digit run. -/
theorem startsWithSix_run {s : Str} (h : startsWithSixDigits s = true) :
    hasDigitRun6 s = true := by
  cases s with
  | nil => simp [startsWithSixDigits] at h
  | cons c cs => rw [hasDigitRun6, h, Bool.true_or]

/-- A hit of the hs_code salvage matcher requires a six-digit run. -/
theorem mHsCodeAt_run {s : Str} {p : Nat × Str}
    (h : mHsCodeAt s = some p) : hasDigitRun6 s = true := by
  rw [mHsCodeAt] at h
  cases he : eatCS (("\x22hs_code\x22").toList) s with
  | none => rw [he] at h; exact absurd h (by simp)
  | some r1 =>
    rw [he] at h
    simp only [Option.bind] at h
    split at h
    next r3 heq2 =>
      split at h
      next r5 heq4 =>
        split at h
        next hif =>
          have hrun5 : hasDigitRun6 r5 = true :=
            startsWithSix_run (startsWithSix_of_digits hif.1)
          have h1 : r1 <:+ s := eatCS_suffix he
          have h2 : (spanWs r1).2 <:+ r1 := dropWhile_isSuffix _ _
          have h3 : r3 <:+ (spanWs r1).2 := by
            rw [heq2]; exact List.suffix_cons ':' r3
          have h4 : (spanWs r3).2 <:+ r3 := dropWhile_isSuffix _ _
          have h5 : r5 <:+ (spanWs r3).2 := by
            rw [heq4]; exact List.suffix_cons '"' r5
          exact hasDigitRun6_of_suffix
            (h5.trans (h4.trans (h3.trans (h2.trans h1)))) hrun5
        next hif => exact absurd h (by simp)
      next heq4 => exact absurd h (by simp)
    next heq2 => exact absurd h (by simp)

/-- The hs_code salvage scan finds nothing in a text without a six-digit
run. -/
theorem scanAllAux_hs_nil : ∀ {s : Str}, hasDigitRun6 s = false →
    ∀ k, scanAllAux mHsCodeAt s k = [] := by
  intro s
  induction s with
  | nil => intro _ k; cases k <;> rfl
  | cons c cs ih =>
    intro h k
    have hcs : hasDigitRun6 cs = false := by
      rw [hasDigitRun6] at h
      exact (Bool.or_eq_false_iff.mp h).2
    cases k with
    | succ k2 => rw [scanAllAux]; exact ih hcs k2
    | zero =>
      cases hm : mHsCodeAt (c :: cs) with
      | some q => exact absurd (mHsCodeAt_run hm) (by simp [h])
      | none => simp only [scanAllAux, hm]; exact ih hcs 0

/-- Replacement text without a dollar sign is substituted verbatim. -/
theorem getSubstitution_id {m b a : Str} : ∀ {r : Str}, '$' ∉ r →
    getSubstitution m b a r = r := by
  intro r
  induction r with
  | nil => intro _; rfl
  | cons c cs ih =>
    intro h
    have hc : ¬ c = '$' := by
      intro hc; exact h (hc ▸ List.mem_cons_self c cs)
    rw [getSubstitution.eq_def]
    dsimp only
    rw [if_neg hc, ih (fun hm => h (List.mem_cons_of_mem c hm))]

end HsCore

namespace HsCore

/-- Unfolding of one token of the filtered run. -/
theorem filteredRun_succ (k : Nat) :
    filteredRun (k + 1) = kwFiltered.toList ++ filteredRun k := by
  rw [filteredRun, List.replicate_succ, List.flatten_cons, filteredRun]

/-- Length of the filtered run. -/
theorem filteredRun_length (k : Nat) : (filteredRun k).length = 10 * k := by
  induction k with
  | zero => rfl
  | succ k ih =>
    rw [filteredRun_succ, List.length_append, ih]
    norm_num [kwFiltered]
    ring

/-- A global replacement whose matcher hits no suffix is the identity. -/
theorem replaceAux_id {p : Str → Option (Nat × Str)} :
    ∀ {s : Str}, (∀ t, t <:+ s → t ≠ [] → p t = none) → replaceAux p s 0 = s := by
  intro s
  induction s with
  | nil => intro _; rfl
  | cons c cs ih =>
    intro h
    rw [replaceAux, h (c :: cs) (List.suffix_refl _) (by simp)]
    exact congrArg (c :: ·) (ih fun t ht hne => h t (ht.trans (List.suffix_cons c cs)) hne)

/-- A suffix of an append is a suffix of the right part or carries the
whole right part. -/
theorem suffix_append_split {t a b : Str} (h : t <:+ a ++ b) :
    t <:+ b ∨ ∃ u, u <:+ a ∧ t = u ++ b := by
  induction a with
  | nil => exact Or.inl (by simpa using h)
  | cons c cs ih =>
    rw [List.cons_append, List.suffix_cons_iff] at h
    rcases h with rfl | h2
    · exact Or.inr ⟨c :: cs, List.suffix_refl _, rfl⟩
    · rcases ih h2 with hb | ⟨u, hu, rfl⟩
      · exact Or.inl hb
      · exact Or.inr ⟨u, hu.trans (List.suffix_cons c cs), rfl⟩

/-- Shape of a suffix of a filtered run: a suffix of the token followed
by a shorter run. -/
theorem suffix_filteredRun {t : Str} :
    ∀ {k : Nat}, t <:+ filteredRun k →
      ∃ u j, u <:+ kwFiltered.toList ∧ t = u ++ filteredRun j := by
  intro k
  induction k with
  | zero =>
    intro h
    exact ⟨[], 0, by simp, by simpa [filteredRun] using h⟩
  | succ k ih =>
    intro h
    rw [filteredRun_succ] at h
    rcases suffix_append_split h with hb | ⟨u, hu, rfl⟩
    · exact ih hb
    · exact ⟨u, k, hu, rfl⟩

/-- The eleven suffixes of the replacement token, enumerated. -/
theorem filteredSuffix_cases {u : Str} (hu : u <:+ kwFiltered.toList) :
    u = [] ∨ u = (("]").toList) ∨ u = (("D]").toList) ∨ u = (("ED]").toList) ∨
    u = (("RED]").toList) ∨ u = (("ERED]").toList) ∨ u = (("TERED]").toList) ∨
    u = (("LTERED]").toList) ∨ u = (("ILTERED]").toList) ∨ u = (("FILTERED]").toList) ∨
    u = (("[FILTERED]").toList) := by
  rcases List.suffix_cons_iff.mp hu with rfl | hu
  · decide
  rcases List.suffix_cons_iff.mp hu with rfl | hu
  · decide
  rcases List.suffix_cons_iff.mp hu with rfl | hu
  · decide
  rcases List.suffix_cons_iff.mp hu with rfl | hu
  · decide
  rcases List.suffix_cons_iff.mp hu with rfl | hu
  · decide
  rcases List.suffix_cons_iff.mp hu with rfl | hu
  · decide
  rcases List.suffix_cons_iff.mp hu with rfl | hu
  · decide
  rcases List.suffix_cons_iff.mp hu with rfl | hu
  · decide
  rcases List.suffix_cons_iff.mp hu with rfl | hu
  · decide
  rcases List.suffix_cons_iff.mp hu with rfl | hu
  · decide
  left
  simpa using hu

/-- No injection matcher, and not the whitespace matcher either, hits at
any position of a filtered run. -/
theorem matchers_none_run (u : Str) (j : Nat) (hu : u <:+ kwFiltered.toList) :
    mIgnoreInstructions (u ++ filteredRun j) = none ∧
    mSystemPrompt (u ++ filteredRun j) = none ∧
    mDisregard (u ++ filteredRun j) = none ∧
    mYouAreNow (u ++ filteredRun j) = none ∧
    mActAs (u ++ filteredRun j) = none ∧
    mNewRole (u ++ filteredRun j) = none ∧
    mForget (u ++ filteredRun j) = none ∧
    mPretend (u ++ filteredRun j) = none ∧
    mDoubleBrace (u ++ filteredRun j) = none ∧
    mSpecialMarker (u ++ filteredRun j) = none ∧
    mInstMarker (u ++ filteredRun j) = none ∧
    mRoleHeader (u ++ filteredRun j) = none ∧
    mWsRun (u ++ filteredRun j) = none := by
  rcases filteredSuffix_cases hu with rfl|rfl|rfl|rfl|rfl|rfl|rfl|rfl|rfl|rfl|rfl <;>
    cases j <;>
    exact ⟨rfl, rfl, rfl, rfl, rfl, rfl, rfl, rfl, rfl, rfl, rfl, rfl, rfl⟩

/-- No matcher other than the brace filter hits at an opening brace. -/
theorem matchers_none_braces (xs : Str) :
    mIgnoreInstructions (chLBrace :: xs) = none ∧
    mSystemPrompt (chLBrace :: xs) = none ∧
    mDisregard (chLBrace :: xs) = none ∧
    mYouAreNow (chLBrace :: xs) = none ∧
    mActAs (chLBrace :: xs) = none ∧
    mNewRole (chLBrace :: xs) = none ∧
    mForget (chLBrace :: xs) = none ∧
    mPretend (chLBrace :: xs) = none ∧
    mSpecialMarker (chLBrace :: xs) = none ∧
    mInstMarker (chLBrace :: xs) = none ∧
    mRoleHeader (chLBrace :: xs) = none ∧
    mWsRun (chLBrace :: xs) = none :=
  ⟨rfl, rfl, rfl, rfl, rfl, rfl, rfl, rfl, rfl, rfl, rfl, rfl⟩

/-- Identity of a filter pass whose matcher misses everywhere. -/
theorem replaceAll_id_of_head {m : Str → Option Str} {s : Str}
    (hm : ∀ t, t <:+ s → t ≠ [] → m t = none) :
    replaceAll (withRepl m kwFiltered.toList) s = s := by
  apply replaceAux_id
  intro t ht hne
  rw [withRepl, hm t ht hne]

/-- A nonempty suffix of a constant run starts with the constant. -/
theorem suffix_replicate_head {t : Str} {n : Nat} {c : Char}
    (ht : t <:+ List.replicate n c) (hne : t ≠ []) :
    ∃ xs, t = c :: xs := by
  cases t with
  | nil => exact absurd rfl hne
  | cons d xs =>
    have hd : d = c :=
      List.eq_of_mem_replicate (ht.subset (List.mem_cons_self d xs))
    exact ⟨xs, by rw [hd]⟩

/-- Action of the brace filter on a run of opening braces: each pair
becomes one replacement token. -/
theorem replaceAll_doubleBrace :
    ∀ k : Nat, replaceAll (withRepl mDoubleBrace kwFiltered.toList)
      (List.replicate (2 * k) chLBrace) = filteredRun k := by
  intro k
  induction k with
  | zero => rfl
  | succ k ih =>
    have h2 : 2 * (k + 1) = (2 * k) + 1 + 1 := by ring
    rw [h2, List.replicate_succ, List.replicate_succ]
    have hm : withRepl mDoubleBrace kwFiltered.toList
        (chLBrace :: chLBrace :: List.replicate (2 * k) chLBrace)
        = some (1 + 1, kwFiltered.toList) := by
      rw [withRepl]
      have hd : mDoubleBrace (chLBrace :: chLBrace :: List.replicate (2 * k) chLBrace)
          = some (List.replicate (2 * k) chLBrace) := rfl
      rw [hd]
      simp
      omega
    rw [replaceAll, replaceAux, hm]
    dsimp only
    rw [replaceAux]
    exact congrArg (kwFiltered.toList ++ ·) ih

end HsCore

namespace HsCore

/-- Appending on the right preserves a whitespace-free head. -/
theorem dropWhile_append_head {A X : Str} (hA : A.dropWhile isJsWs = A) (hne : A ≠ []) :
    (A ++ X).dropWhile isJsWs = A ++ X := by
  cases A with
  | nil => exact absurd rfl hne
  | cons a as =>
    have ha : isJsWs a = false := by
      by_contra hw
      rw [List.dropWhile_cons] at hA
      simp only [Bool.not_eq_false] at hw
      rw [if_pos hw] at hA
      have := congrArg List.length hA
      have hle := (dropWhile_isSuffix isJsWs as).length_le
      simp at this
      omega
    rw [List.cons_append, List.dropWhile_cons, ha]
    simp

/-- Trimming fixes a text whose two ends are not whitespace. -/
theorem jsTrim_id_of {l : Str} (h1 : l.dropWhile isJsWs = l)
    (h2 : l.reverse.dropWhile isJsWs = l.reverse) : jsTrim l = l := by
  rw [jsTrim, h1, h2, List.reverse_reverse]

/-- A filtered run has a whitespace-free head. -/
theorem run_dropWhile (k : Nat) :
    (filteredRun k).dropWhile isJsWs = filteredRun k := by
  cases k with
  | zero => rfl
  | succ k =>
    rw [filteredRun_succ]
    exact dropWhile_append_head rfl (by decide)

/-- A filtered run has a whitespace-free tail. -/
theorem run_reverse_dropWhile :
    ∀ k : Nat, (filteredRun k).reverse.dropWhile isJsWs = (filteredRun k).reverse := by
  intro k
  induction k with
  | zero => rfl
  | succ k ih =>
    rw [filteredRun_succ, List.reverse_append]
    by_cases hA : (filteredRun k).reverse = []
    · rw [hA, List.nil_append]
      rfl
    · exact dropWhile_append_head ih hA

/-- Trimming fixes a filtered run. -/
theorem trim_run (k : Nat) : jsTrim (filteredRun k) = filteredRun k :=
  jsTrim_id_of (run_dropWhile k) (run_reverse_dropWhile k)

/-- Whitespace collapsing fixes a filtered run. -/
theorem collapse_run (k : Nat) : replaceAll mWsRun (filteredRun k) = filteredRun k := by
  apply replaceAux_id
  intro t ht hne
  obtain ⟨u, j, hu, rfl⟩ := suffix_filteredRun ht
  exact (matchers_none_run u j hu).2.2.2.2.2.2.2.2.2.2.2.2

/-- Suffix-closure transfer for matcher misses on a filtered run. -/
theorem run_hyp (k : Nat) (m : Str → Option Str)
    (hm : ∀ u j, u <:+ kwFiltered.toList → m (u ++ filteredRun j) = none) :
    ∀ t, t <:+ filteredRun k → t ≠ [] → m t = none := by
  intro t ht _
  obtain ⟨u, j, hu, rfl⟩ := suffix_filteredRun ht
  exact hm u j hu

/-- The whole filter pass fixes a filtered run. -/
theorem filters_run (k : Nat) :
    applyInjectionFilters (filteredRun k) = filteredRun k := by
  rw [applyInjectionFilters, injectionMatchers]
  simp only [List.foldl_cons, List.foldl_nil]
  rw [replaceAll_id_of_head (run_hyp k _ fun u j hu => (matchers_none_run u j hu).1),
      replaceAll_id_of_head (run_hyp k _ fun u j hu => (matchers_none_run u j hu).2.1),
      replaceAll_id_of_head (run_hyp k _ fun u j hu => (matchers_none_run u j hu).2.2.1),
      replaceAll_id_of_head (run_hyp k _ fun u j hu => (matchers_none_run u j hu).2.2.2.1),
      replaceAll_id_of_head (run_hyp k _ fun u j hu => (matchers_none_run u j hu).2.2.2.2.1),
      replaceAll_id_of_head (run_hyp k _ fun u j hu => (matchers_none_run u j hu).2.2.2.2.2.1),
      replaceAll_id_of_head (run_hyp k _ fun u j hu => (matchers_none_run u j hu).2.2.2.2.2.2.1),
      replaceAll_id_of_head (run_hyp k _ fun u j hu => (matchers_none_run u j hu).2.2.2.2.2.2.2.1),
      replaceAll_id_of_head (run_hyp k _ fun u j hu => (matchers_none_run u j hu).2.2.2.2.2.2.2.2.1),
      replaceAll_id_of_head (run_hyp k _ fun u j hu => (matchers_none_run u j hu).2.2.2.2.2.2.2.2.2.1),
      replaceAll_id_of_head (run_hyp k _ fun u j hu => (matchers_none_run u j hu).2.2.2.2.2.2.2.2.2.2.1),
      replaceAll_id_of_head (run_hyp k _ fun u j hu => (matchers_none_run u j hu).2.2.2.2.2.2.2.2.2.2.2.1)]

/-- Suffix-closure transfer for matcher misses on the brace input. -/
theorem braces_hyp (m : Str → Option Str) (hm : ∀ xs, m (chLBrace :: xs) = none) :
    ∀ t, t <:+ bracesInput → t ≠ [] → m t = none := by
  intro t ht hne
  obtain ⟨xs, rfl⟩ := suffix_replicate_head (n := 402) (c := chLBrace) ht hne
  exact hm xs

/-- Whitespace collapsing fixes the brace input. -/
theorem collapse_braces : replaceAll mWsRun bracesInput = bracesInput := by
  apply replaceAux_id
  intro t ht hne
  obtain ⟨xs, rfl⟩ := suffix_replicate_head (n := 402) (c := chLBrace) ht hne
  rfl

set_option maxRecDepth 8000 in
/-- Trimming fixes the brace input. -/
theorem trim_braces : jsTrim bracesInput = bracesInput := by
  rfl

/-- The filter pass turns the brace input into 201 replacement tokens:
the first eight filters miss, the brace filter fires on every pair, and
the last three filters miss on the result. -/
theorem filters_braces : applyInjectionFilters bracesInput = filteredRun 201 := by
  rw [applyInjectionFilters, injectionMatchers]
  simp only [List.foldl_cons, List.foldl_nil]
  rw [replaceAll_id_of_head (braces_hyp _ fun xs => (matchers_none_braces xs).1),
      replaceAll_id_of_head (braces_hyp _ fun xs => (matchers_none_braces xs).2.1),
      replaceAll_id_of_head (braces_hyp _ fun xs => (matchers_none_braces xs).2.2.1),
      replaceAll_id_of_head (braces_hyp _ fun xs => (matchers_none_braces xs).2.2.2.1),
      replaceAll_id_of_head (braces_hyp _ fun xs => (matchers_none_braces xs).2.2.2.2.1),
      replaceAll_id_of_head (braces_hyp _ fun xs => (matchers_none_braces xs).2.2.2.2.2.1),
      replaceAll_id_of_head (braces_hyp _ fun xs => (matchers_none_braces xs).2.2.2.2.2.2.1),
      replaceAll_id_of_head (braces_hyp _ fun xs => (matchers_none_braces xs).2.2.2.2.2.2.2.1),
      show bracesInput = List.replicate (2 * 201) chLBrace from rfl,
      replaceAll_doubleBrace 201,
      replaceAll_id_of_head (run_hyp 201 _ fun u j hu => (matchers_none_run u j hu).2.2.2.2.2.2.2.2.2.1),
      replaceAll_id_of_head (run_hyp 201 _ fun u j hu => (matchers_none_run u j hu).2.2.2.2.2.2.2.2.2.2.1),
      replaceAll_id_of_head (run_hyp 201 _ fun u j hu => (matchers_none_run u j hu).2.2.2.2.2.2.2.2.2.2.2.1)]

/-- Truncation of a filtered run at a token boundary. -/
theorem take_filteredRun : ∀ (j k : Nat), j ≤ k →
    List.take (10 * j) (filteredRun k) = filteredRun j := by
  intro j
  induction j with
  | zero => intro k _; simp [filteredRun]
  | succ j ih =>
    intro k hk
    cases k with
    | zero => omega
    | succ k =>
      rw [filteredRun_succ k, filteredRun_succ j, List.take_append_eq_append_take]
      rw [List.take_of_length_le (by simp [kwFiltered])]
      congr 1
      rw [show 10 * (j + 1) - (kwFiltered.toList).length = 10 * j by simp [kwFiltered]; omega]
      exact ih k (by omega)

/-- The 201-token run is nonempty. -/
theorem run_ne_nil : filteredRun 201 ≠ [] := by
  intro h
  have := congrArg List.length h
  rw [filteredRun_length] at this
  simp at this

/-- Length of the brace input. -/
theorem bracesInput_length : bracesInput.length = 402 := by
  unfold bracesInput
  rw [List.length_replicate]

/-- The brace input is nonempty. -/
theorem braces_ne_nil : bracesInput ≠ [] := by
  intro h
  have := congrArg List.length h
  rw [bracesInput_length, List.length_nil] at this
  omega

/-- First sanitizer pass on the brace input: 2010 characters out. -/
theorem sanitize_braces : sanitizeInput id bracesInput = filteredRun 201 := by
  rw [sanitizeInput, if_neg braces_ne_nil]
  rw [show (id bracesInput) = bracesInput from rfl]
  rw [List.take_of_length_le (by rw [bracesInput_length]; omega)]
  rw [collapse_braces, trim_braces, filters_braces]

/-- Second sanitizer pass: the 2010-character text is truncated to 2000
characters, which the remaining stages fix. -/
theorem sanitize_run : sanitizeInput id (filteredRun 201) = filteredRun 200 := by
  rw [sanitizeInput, if_neg run_ne_nil]
  rw [show (id (filteredRun 201)) = filteredRun 201 from rfl]
  rw [show (2000 : Nat) = 10 * 200 from rfl]
  rw [take_filteredRun 200 201 (by omega)]
  rw [collapse_run, trim_run, filters_run]

end HsCore

namespace HsCore

/-- Claim C1 (confirmed): the response normalizer is total.  For every
string input the embedded `parseJsonResponseE` returns a value (never a
propagated exception); by its definition the value is the parsed or
salvaged object on success and `null` on total failure, the two `null`
values being one, as in JavaScript. -/
theorem normalizer_never_throws (s : Str) :
    ∃ v : JsonVal, parseJsonResponseE s = Except.ok v :=
  parseJsonResponseE_total s

/-- Claim C2 (counterexample): a non-timeout gateway failure on attempt 1
IS retried.  Two gateway behaviors that both fail hard on attempt 1 but
differ on attempt 2 produce different results, and the one whose second
attempt replies with parseable text returns that parse — so attempt 2
runs, contradicting the claim that a hard failure on attempt 1 does not
lead to attempt 2. -/
theorem classify_hard_failure_retry_cex :
    classifyProduct id gwFailThenGood descLaptop = .ok goodReplyVal ∧
    classifyProduct id gwFailTwice descLaptop = .error classifyUnavailableMsg :=
  ⟨rfl, rfl⟩

/-- Claim C2 (amended): on a non-timeout failure of attempt 1 the loop
falls through its catch block and continues with attempt 2 — the run
equals the loop entered at attempt 2 with one attempt left; only a
failure on the final attempt propagates as the terminal error. -/
theorem classify_hard_failure_is_retried (nfkc : Str → Str)
    (gw : Str → Nat → GatewayOutcome) (desc : Str) (msg : String)
    (hs : ¬ sanitizeInput nfkc desc = [])
    (h1 : gw (renderClassificationPrompt (sanitizeInput nfkc desc)) 1 = .raise msg)
    (hm : ¬ msg = timeoutRaceMsg) :
    classifyProduct nfkc gw desc =
      classifyLoop (gw (renderClassificationPrompt (sanitizeInput nfkc desc))) 2 1 := by
  simp only [classifyProduct, if_neg hs, MAX_RETRIES]
  rw [show (2 : Nat) = 1 + 1 from rfl, classifyLoop, h1]
  dsimp only
  rw [if_neg hm]
  norm_num [MAX_RETRIES]

/-- Witness for the amended C2 at a concrete gateway and description. -/
theorem classify_hard_failure_is_retried_witness :
    (¬ sanitizeInput id descLaptop = []) ∧
    gwFailThenGood (renderClassificationPrompt (sanitizeInput id descLaptop)) 1 =
      .raise connRefusedMsg ∧
    classifyProduct id gwFailThenGood descLaptop =
      classifyLoop (gwFailThenGood (renderClassificationPrompt (sanitizeInput id descLaptop))) 2 1 :=
  ⟨by decide, rfl,
   classify_hard_failure_is_retried id gwFailThenGood descLaptop connRefusedMsg
     (by decide) rfl (by decide)⟩

/-- Claim C3 (counterexample): the sanitizer is not idempotent.  On 402
opening braces the first pass produces 201 ten-character replacement
tokens (2010 characters); the second pass truncates that to 2000
characters, so the two passes disagree. -/
theorem sanitize_idempotence_cex :
    sanitizeInput id (sanitizeInput id bracesInput) ≠ sanitizeInput id bracesInput := by
  rw [sanitize_braces, sanitize_run]
  intro h
  have := congrArg List.length h
  rw [filteredRun_length, filteredRun_length] at this
  omega

/-- Claim C3 (amended): the sanitizer is idempotent on every input whose
sanitized text is a fixed point of the stages the second pass reapplies —
within the 2000-character cap, normalization-stable, and fixed by the
whitespace collapse and the filter pass. -/
theorem sanitize_idempotent_of_fixed (nfkc : Str → Str) (x : Str)
    (hn : nfkc (sanitizeInput nfkc x) = sanitizeInput nfkc x)
    (hl : (sanitizeInput nfkc x).length ≤ 2000)
    (hw : jsTrim (replaceAll mWsRun (sanitizeInput nfkc x)) = sanitizeInput nfkc x)
    (hf : applyInjectionFilters (sanitizeInput nfkc x) = sanitizeInput nfkc x) :
    sanitizeInput nfkc (sanitizeInput nfkc x) = sanitizeInput nfkc x := by
  by_cases he : sanitizeInput nfkc x = []
  · rw [he]; rfl
  · conv_lhs => rw [sanitizeInput]
    rw [if_neg he, hn, List.take_of_length_le hl, hw, hf]

/-- Witness for the amended C3 at a concrete benign description. -/
theorem sanitize_idempotent_of_fixed_witness :
    id (sanitizeInput id sanitizeSample) = sanitizeInput id sanitizeSample ∧
    (sanitizeInput id sanitizeSample).length ≤ 2000 ∧
    sanitizeInput id (sanitizeInput id sanitizeSample) = sanitizeInput id sanitizeSample :=
  ⟨rfl, by decide, sanitize_idempotent_of_fixed id sanitizeSample rfl
    (by decide) (by decide) (by decide)⟩

/-- Claim C4 (counterexample): on the exact text of the claim (unquoted
key, single-quoted value, no braces) the normalizer returns `null` with
no candidate at all, not one low-confidence candidate: the key-quoting
repair needs a preceding brace or comma, and the salvage layer needs a
double-quoted key. -/
theorem salvage_unquoted_key_cex :
    parseJsonResponseE c4Text = .ok JsonVal.null ∧
    classificationsLength JsonVal.null = 0 := ⟨rfl, rfl⟩

/-- Claim C4 (amended): the stated input yields `null`; with one leading
open brace the key-quoting repair fires and the salvage layer returns
exactly one low-confidence candidate with code 01012100 and formatted
code 0101.21.00. -/
theorem salvage_unquoted_key_amended :
    parseJsonResponseE c4Text = .ok JsonVal.null ∧
    parseJsonResponseE c4BraceText = .ok c4Value := ⟨rfl, rfl⟩

/-- Claim C5 (counterexample): the normalizer does not bound the
candidate list by three — an unparsable text with four quoted hs_code
occurrences yields a non-null result with four candidates. -/
theorem candidates_bound_cex :
    parseJsonResponseE salvageFourText = .ok salvageFourVal ∧
    salvageFourVal ≠ JsonVal.null ∧
    classificationsLength salvageFourVal = 4 :=
  ⟨rfl, fun h => JsonVal.noConfusion h, rfl⟩

/-- Claim C5 (amended): the normalizer never truncates — a successful
strict parse of the repaired text is returned unchanged, whatever the
length of its classifications list; the bound of three relies on the
model honoring the prompt, not on the normalizer. -/
theorem strict_parse_passthrough (t : Str) (v : JsonVal) (h0 : ¬ t = [])
    (h : jsonParse (normalizerText t) = some v) :
    parseJsonResponseE t = .ok v := by
  rw [parseJsonResponseE, if_neg h0]
  simp only [jsonParseExc, h]

/-- Witness for the amended C5: a parse with four candidates passes
through unchanged. -/
theorem strict_parse_passthrough_witness :
    (¬ fourText = []) ∧
    jsonParse (normalizerText fourText) = some fourVal ∧
    parseJsonResponseE fourText = .ok fourVal ∧
    classificationsLength fourVal = 4 :=
  ⟨by decide, rfl, strict_parse_passthrough fourText fourVal (by decide) rfl, rfl⟩

/-- Claim C6 (confirmed): when both attempts reply but neither parse is
usable (truthy), `classifyProduct` returns `null` rather than
throwing. -/
theorem classify_unusable_attempts_null (nfkc : Str → Str)
    (gw : Str → Nat → GatewayOutcome) (desc t1 t2 : Str) (v1 v2 : JsonVal)
    (hs : ¬ sanitizeInput nfkc desc = [])
    (h1 : gw (renderClassificationPrompt (sanitizeInput nfkc desc)) 1 = .reply t1)
    (h2 : gw (renderClassificationPrompt (sanitizeInput nfkc desc)) 2 = .reply t2)
    (p1 : parseJsonResponseE (jsTrim t1) = .ok v1) (f1 : jsTruthy v1 = false)
    (p2 : parseJsonResponseE (jsTrim t2) = .ok v2) (f2 : jsTruthy v2 = false) :
    classifyProduct nfkc gw desc = .ok JsonVal.null := by
  simp only [classifyProduct, if_neg hs, MAX_RETRIES]
  rw [show (2 : Nat) = 1 + 1 from rfl, classifyLoop, h1]
  dsimp only
  rw [p1]
  dsimp only
  rw [f1]
  simp only [Bool.false_eq_true, if_false]
  norm_num [MAX_RETRIES]
  rw [show (1 : Nat) = 0 + 1 from rfl, classifyLoop, h2]
  dsimp only
  rw [p2]
  dsimp only
  rw [f2]
  simp only [Bool.false_eq_true, if_false]
  norm_num [MAX_RETRIES]

/-- Witness for C6: two unusable replies produce `null`. -/
theorem classify_unusable_attempts_null_witness :
    classifyProduct id gwBadReplies descLaptop = .ok JsonVal.null :=
  classify_unusable_attempts_null id gwBadReplies descLaptop badReplyText badReplyText
    JsonVal.null JsonVal.null (by decide) rfl rfl rfl rfl rfl rfl

/-- Claim C7 (counterexample): a reply of `0` parses to a non-null value,
yet the function returns the pass-through fallback with `success: false`
because the parsed value is falsy — refuting that every parse success is
returned with `success: true`. -/
theorem enhance_falsy_parse_cex :
    parseJsonResponseE zeroText = .ok (JsonVal.num (("0").toList)) ∧
    JsonVal.num (("0").toList) ≠ JsonVal.null ∧
    jsTruthy (JsonVal.num (("0").toList)) = false ∧
    enhanceSearchQuery id (fun _ => .reply zeroText) qToys = .ok (searchFallback qToys) ∧
    getField (searchFallback qToys) (("success").toList) = some (JsonVal.bool false) :=
  ⟨rfl, fun h => JsonVal.noConfusion h, rfl, rfl, rfl⟩

/-- Claim C7 (amended): `enhanceSearchQuery` never throws and equals the
specification model — a failed call, an empty sanitized query, a null
parse or a falsy parsed value all degrade to the pass-through fallback
built from the original query, and a truthy parsed value is returned
spread with `success: true`. -/
theorem enhance_refines_spec_model (nfkc : Str → Str) (gw : Str → GatewayOutcome)
    (q : Str) :
    enhanceSearchQuery nfkc gw q = .ok (enhanceSpecModel nfkc gw q) := by
  rw [enhanceSearchQuery, enhanceSpecModel]
  by_cases hq : sanitizeInput nfkc q = []
  · rw [if_pos hq, if_pos hq]
  · rw [if_neg hq, if_neg hq]
    dsimp only
    cases gw (renderSearchPrompt (sanitizeInput nfkc q)) with
    | raise m => rfl
    | reply content =>
      cases hp : parseJsonResponseE (jsTrim content) with
      | ok v => simp only [hp]
      | error e => simp only [hp]

set_option maxRecDepth 40000 in
/-- Claim C8 (counterexample): substitution is not literal — a sanitized
value of `$&` is interpreted by the replacement rules, reproducing the
placeholder, so the rendered prompt equals the template and does not
contain the value in place of the placeholder. -/
theorem render_dollar_substitution_cex :
    renderClassificationPrompt dollarAmp = CLASSIFICATION_PROMPT.toList ∧
    renderClassificationPrompt dollarAmp ≠ promptHead ++ dollarAmp ++ promptTail := by
  constructor
  · rfl
  · decide

set_option maxRecDepth 8192 in
/-- Claim C8 (amended): for every value without a dollar character the
rendered classification prompt is the template text around the value
verbatim, substituted at the placeholder by first-occurrence string
replacement. -/
theorem render_literal_of_no_dollar (v : Str) (hv : '$' ∉ v) :
    renderClassificationPrompt v = promptHead ++ v ++ promptTail := by
  rw [renderClassificationPrompt, jsReplaceFirst]
  rw [show findSub descPlaceholder CLASSIFICATION_PROMPT.toList = some promptDescIdx from rfl]
  dsimp only
  rw [getSubstitution_id hv, promptHead, promptTail]

set_option maxRecDepth 8192 in
/-- Witness for the amended C8 at a concrete dollar-free value. -/
theorem render_literal_of_no_dollar_witness :
    ('$' ∉ descLaptop) ∧
    renderClassificationPrompt descLaptop = promptHead ++ descLaptop ++ promptTail :=
  ⟨by decide, render_literal_of_no_dollar descLaptop (by decide)⟩

/-- Claim C9 (counterexample): a digit-free model text need not yield
`null` — the empty object parses; a control character is stripped,
joining two short digit runs into a salvageable code; and the
classifications-array layer can fire without any digit. -/
theorem no_digit_run_null_cex :
    hasDigitRun6 emptyObjText = false ∧
    parseJsonResponseE emptyObjText = .ok (JsonVal.obj []) ∧
    JsonVal.obj [] ≠ JsonVal.null ∧
    hasDigitRun6 ctrlJoinText = false ∧
    parseJsonResponseE ctrlJoinText = .ok ctrlJoinVal ∧
    ctrlJoinVal ≠ JsonVal.null ∧
    hasDigitRun6 clsNoDigitText = false ∧
    parseJsonResponseE clsNoDigitText = .ok clsNoDigitVal ∧
    clsNoDigitVal ≠ JsonVal.null :=
  ⟨rfl, rfl, fun h => JsonVal.noConfusion h, rfl, rfl,
   fun h => JsonVal.noConfusion h, rfl, rfl, fun h => JsonVal.noConfusion h⟩

/-- Claim C9 (amended): when the repaired text (after fence stripping,
narrowing and syntax repairs) has no six-digit run, and the strict-parse
and classifications-array layers both fail on it, the normalizer returns
`null` — the final salvage layer cannot fire without six consecutive
digits. -/
theorem no_digit_run_yields_null (t : Str)
    (h1 : hasDigitRun6 (normalizerText t) = false)
    (h2 : jsonParse (normalizerText t) = none)
    (h3 : scanFirst mClsArray (normalizerText t) = none) :
    parseJsonResponseE t = .ok JsonVal.null := by
  by_cases ht : t = []
  · rw [ht]; rfl
  · rw [parseJsonResponseE, if_neg ht]
    simp only [jsonParseExc, h2, h3, scanAllAux_hs_nil h1]

/-- Witness for the amended C9 at a concrete digit-free text. -/
theorem no_digit_run_yields_null_witness :
    hasDigitRun6 (normalizerText badReplyText) = false ∧
    jsonParse (normalizerText badReplyText) = none ∧
    scanFirst mClsArray (normalizerText badReplyText) = none ∧
    parseJsonResponseE badReplyText = .ok JsonVal.null :=
  ⟨rfl, rfl, rfl, no_digit_run_yields_null badReplyText rfl rfl rfl⟩

/-- Claim C10 (confirmed): whenever sanitization yields the empty string,
`classifyProduct` throws `Invalid or empty description` regardless of
the gateway — no model call can influence the result. -/
theorem classify_empty_sanitized_throws (nfkc : Str → Str)
    (gw : Str → Nat → GatewayOutcome) (desc : Str)
    (h : sanitizeInput nfkc desc = []) :
    classifyProduct nfkc gw desc = .error invalidDescMsg := by
  simp [classifyProduct, h]

/-- Witness for C10 at a whitespace-only description. -/
theorem classify_empty_sanitized_throws_witness :
    sanitizeInput id wsOnlyDesc = [] ∧
    classifyProduct id gwBadReplies wsOnlyDesc = .error invalidDescMsg :=
  ⟨by decide, classify_empty_sanitized_throws id gwBadReplies wsOnlyDesc (by decide)⟩

end HsCore
